import Mathlib

/-!
Verification development for the MTG Announcer session coordinator.

This file shallowly embeds the state-management core of the repository:
the Dexie-backed player/match store (`src/database.ts`), the announcer
view's life and commander-damage trackers (`AnnouncerView`), the live
session hook's tool-call dispatch, board management and audio scheduling
(`src/hooks/useLiveSession.ts`), and the peer network hook
(`src/hooks/usePeerNetwork.ts`).

JavaScript `Record<string, T>` objects are modelled as association lists
in insertion order (`recGet` / `recSet` mirror property read and spread
update `\x7b...prev, [k]: v\x7d`).  `crypto.randomUUID()` is modelled as a
counter threaded through the operations; Dexie auto-increment ids start
at 1 as in IndexedDB.  Timestamps (`created_at`) are omitted: no claim
concerns them.
-/

namespace Announcer

/-- JavaScript `String.prototype.toLowerCase` (ASCII-faithful). -/
def toLowerCase (s : String) : String := ⟨s.data.map Char.toLower⟩

/-- Drop whitespace from both ends of a character list. -/
def trimChars (l : List Char) : List Char :=
  ((l.dropWhile Char.isWhitespace).reverse.dropWhile Char.isWhitespace).reverse

/-- JavaScript `String.prototype.trim`. -/
def jsTrim (s : String) : String := ⟨trimChars s.data⟩

/-- Prefix test on character lists, used to embed `String.prototype.includes`. -/
def isPrefixChars : List Char → List Char → Bool
  | [], _ => true
  | _ :: _, [] => false
  | a :: as, b :: bs => a == b && isPrefixChars as bs

/-- Substring containment on character lists. -/
def containsSub : List Char → List Char → Bool
  | _, [] => true
  | [], _ :: _ => false
  | h :: t, n => isPrefixChars n (h :: t) || containsSub t n

/-- JavaScript `haystack.includes(needle)` for strings. -/
def strIncludes (hay needle : String) : Bool := containsSub hay.toList needle.toList

/-- Read of a JS object property: first binding for the key, if any. -/
def recGet {α : Type} (m : List (String × α)) (k : String) : Option α :=
  (m.find? (fun kv => kv.1 == k)).map (fun kv => kv.2)

/-- JS object spread update `\x7b...m, [k]: v\x7d`: replace the binding in
place when the key is present, append it otherwise. -/
def recSet {α : Type} (m : List (String × α)) (k : String) (v : α) : List (String × α) :=
  if m.any (fun kv => kv.1 == k) then
    m.map (fun kv => if kv.1 == k then (kv.1, v) else kv)
  else m ++ [(k, v)]

/-- JavaScript `x || d` on an optionally-present integer property: `0`
is falsy, so a stored 0 falls back to the default. -/
def jsOrInt (x : Option Int) (d : Int) : Int :=
  match x with
  | some v => if v = 0 then d else v
  | none => d

/-- The keys of an association list are pairwise distinct. -/
def NodupKeys {α : Type} (m : List (String × α)) : Prop :=
  (m.map Prod.fst).Nodup

/-- A stored player profile (`PlayerProfile` in `types.ts`; the
`created_at` timestamp is omitted, no claim concerns it). -/
structure PlayerProfile where
  id : Nat
  name : String
deriving Repr, DecidableEq

/-- A match history row (`MatchRecord` in `types.ts`; the auto-increment
row id and timestamp are omitted, no claim concerns them). -/
structure MatchRecord where
  winner_id : Nat
  loser_ids : List Nat
  match_type : String
deriving Repr, DecidableEq

/-- The fields of a catalog `Card` row that the session logic reads
(`database.ts`); the remaining Scryfall metadata is never consulted by
the operations under verification. -/
structure Card where
  oracle_id : String
  name : String
  type_line : String
  image_small : Option String
  image_normal : Option String
  oracle_text : String
deriving Repr, DecidableEq

/-- `GameSettings` in `types.ts`. -/
structure GameSettings where
  format : String
  customRules : String
deriving Repr, DecidableEq

/-- A status badge on a battlefield card (`CardStatus` in `types.ts`);
`id` models `crypto.randomUUID()` via a counter. -/
structure CardStatus where
  id : Nat
  label : String
  icon : String
  color : String
deriving Repr, DecidableEq

/-- `BattlefieldCard` in `types.ts`; `instanceId` models
`crypto.randomUUID()` via a counter. -/
structure BattlefieldCard where
  instanceId : Nat
  oracle_id : String
  name : String
  type_line : String
  image_uri : Option String
  controller : String
  tapped : Bool
  oracle_text : Option String
  statuses : List CardStatus
deriving Repr, DecidableEq

/-- The local document database (`MTGDatabase` in `database.ts`):
the `players` table with its auto-increment key, the `matches` table,
the card catalog and the saved game settings. -/
structure DbState where
  players : List PlayerProfile
  nextPlayerId : Nat
  matchRows : List MatchRecord
  cards : List Card
  settings : Option GameSettings
deriving Repr, DecidableEq

/-- A battlefield: board entries keyed by player name
(`Record<string, BattlefieldCard[]>` in `useLiveSession.ts`). -/
abbrev Board := List (String × List BattlefieldCard)

/-- The commander-damage matrix: per victim, damage received keyed by
attacker name (`Record<string, Record<string, number>>` in
`AnnouncerView`). -/
abbrev CDMap := List (String × List (String × Int))

/-- One step of `MTGDatabase.registerSessionPlayers`: trim the name,
case-insensitive lookup in the `players` table, create a fresh row with
the next auto-increment id when absent. -/
def registerOne (d : DbState) (name : String) : PlayerProfile × DbState :=
  let cleanName := jsTrim name
  match d.players.find? (fun p => toLowerCase p.name == toLowerCase cleanName) with
  | some p => (p, d)
  | none =>
      let p : PlayerProfile := { id := d.nextPlayerId, name := cleanName }
      (p, { d with players := d.players ++ [p], nextPlayerId := d.nextPlayerId + 1 })

/-- `MTGDatabase.registerSessionPlayers`: for each name in order,
find-or-create against the players table, returning the resolved
profiles in the same order. -/
def registerSessionPlayers (d : DbState) : List String → List PlayerProfile × DbState
  | [] => ([], d)
  | n :: rest =>
      let r := registerOne d n
      let r' := registerSessionPlayers r.2 rest
      (r.1 :: r'.1, r'.2)

/-- `MTGDatabase.getCardByName`: exact-name match first, then a
case-insensitive scan. -/
def getCardByName (cards : List Card) (name : String) : Option Card :=
  match cards.find? (fun c => c.name == name) with
  | some c => some c
  | none => cards.find? (fun c => toLowerCase c.name == toLowerCase name)

/-- `MTGDatabase.recordMatchResult`: re-register all participant names,
then store a match row when the winner resolves and at least one loser
resolves. -/
def recordMatchResult (d : DbState) (winnerName : String) (loserNames : List String)
    (mtype : String) : DbState :=
  let r := registerSessionPlayers d (winnerName :: loserNames)
  let profiles := r.1
  let d1 := r.2
  let winner := profiles.find? (fun p => toLowerCase p.name == toLowerCase winnerName)
  let losers := profiles.filter
    (fun p => loserNames.any (fun ln => toLowerCase ln == toLowerCase p.name))
  match winner with
  | some w =>
      if 0 < losers.length then
        { d1 with matchRows := d1.matchRows ++
            [{ winner_id := w.id, loser_ids := losers.map (fun l => l.id),
               match_type := mtype }] }
      else d1
  | none => d1

/-- The head-to-head numbers assembled by `MTGDatabase.getPlayerStats`. -/
structure HeadToHeadStats where
  p1Name : String
  p2Name : String
  p1WinsTotal : Nat
  p1Wins1v1 : Nat
  p2WinsTotal : Nat
  p2Wins1v1 : Nat
deriving Repr, DecidableEq

/-- The counting loop of `MTGDatabase.getPlayerStats` over the matches
table. -/
def countStats (p1 p2 : PlayerProfile) (ms : List MatchRecord) : HeadToHeadStats :=
  ms.foldl
    (fun acc m =>
      let acc :=
        if m.winner_id == p1.id && m.loser_ids.contains p2.id then
          { acc with p1WinsTotal := acc.p1WinsTotal + 1,
                     p1Wins1v1 := if m.match_type == "1v1" then acc.p1Wins1v1 + 1 else acc.p1Wins1v1 }
        else acc
      if m.winner_id == p2.id && m.loser_ids.contains p1.id then
        { acc with p2WinsTotal := acc.p2WinsTotal + 1,
                   p2Wins1v1 := if m.match_type == "1v1" then acc.p2Wins1v1 + 1 else acc.p2Wins1v1 }
      else acc)
    { p1Name := p1.name, p2Name := p2.name,
      p1WinsTotal := 0, p1Wins1v1 := 0, p2WinsTotal := 0, p2Wins1v1 := 0 }

/-- `MTGDatabase.getPlayerStats`: case-insensitive lookup of both
players, `none` when either is missing. -/
def getPlayerStats (d : DbState) (player1Name player2Name : String) : Option HeadToHeadStats :=
  match d.players.find? (fun p => toLowerCase p.name == toLowerCase player1Name) with
  | none => none
  | some p1 =>
    match d.players.find? (fun p => toLowerCase p.name == toLowerCase player2Name) with
    | none => none
    | some p2 => some (countStats p1 p2 d.matchRows)

/-- `adjustLife` in `AnnouncerView`: `(prev[playerName] || 40) + amount`
— a missing entry, and a stored 0, both fall back to the default 40;
the write creates the entry when absent. -/
def adjustLife (life : List (String × Int)) (playerName : String) (amount : Int) :
    List (String × Int) :=
  recSet life playerName (jsOrInt (recGet life playerName) 40 + amount)

/-- `adjustCommanderDamage` in `AnnouncerView`: read the victim's row
(`prev[victim] || \x7b\x7d`), read the attacker's value (`|| 0`), clamp the
sum at 0 and write it back. -/
def adjustCommanderDamage (cd : CDMap) (victim attacker : String) (amount : Int) : CDMap :=
  let victimRecord := (recGet cd victim).getD []
  let currentVal := (recGet victimRecord attacker).getD 0
  let newVal := max 0 (currentVal + amount)
  recSet cd victim (recSet victimRecord attacker newVal)

/-- `getLethalSources` in `AnnouncerView`: the attackers in the victim's
row whose damage is at least 21. -/
def getLethalSources (cd : CDMap) (victim : String) : List String :=
  match recGet cd victim with
  | none => []
  | some victimRecord =>
      (victimRecord.filter (fun kv => (21 : Int) ≤ kv.2)).map (fun kv => kv.1)

/-- The `AnnouncerView` effect on `[sessionPlayers]` (lines 232-242):
when the roster is non-empty, rebuild the life map from scratch, each
player keeping `currentLife[p.name] || 40`. -/
def initLifeEffect (sessionPlayers : List PlayerProfile) (currentLife : List (String × Int)) :
    List (String × Int) :=
  if 0 < sessionPlayers.length then
    sessionPlayers.foldl
      (fun acc p => recSet acc p.name (jsOrInt (recGet currentLife p.name) 40)) []
  else currentLife

/-- `getStatusVisuals` in `useLiveSession.ts`: the icon/color pair
derived from the status text. -/
def getStatusVisuals (statusText : String) : String × String :=
  let text := toLowerCase statusText
  if strIncludes text "counter" && strIncludes text "+" then ("fa-arrow-up", "bg-green-600 text-white")
  else if strIncludes text "counter" && strIncludes text "-" then ("fa-arrow-down", "bg-red-600 text-white")
  else if strIncludes text "hexproof" then ("fa-shield-halved", "bg-cyan-600 text-white")
  else if strIncludes text "indestructible" then ("fa-shield", "bg-yellow-600 text-black")
  else if strIncludes text "flying" then ("fa-feather", "bg-sky-500 text-white")
  else if strIncludes text "trample" then ("fa-shoe-prints", "bg-orange-600 text-white")
  else if strIncludes text "haste" then ("fa-bolt", "bg-red-500 text-white")
  else if strIncludes text "vigilance" then ("fa-eye", "bg-white text-black")
  else if strIncludes text "deathtouch" then ("fa-skull", "bg-purple-600 text-white")
  else if strIncludes text "lifelink" then ("fa-heart", "bg-pink-600 text-white")
  else if strIncludes text "stun" then ("fa-snowflake", "bg-blue-400 text-white")
  else if strIncludes text "summoning sick" then ("fa-dizzy", "bg-green-800 text-white")
  else if strIncludes text "goaded" then ("fa-bullhorn", "bg-red-700 text-white")
  else ("fa-circle-info", "bg-zinc-700 text-white")

/-- Case-insensitive board match used by the `remove` and
`update_status` branches of `manage_board`
(`c.name.toLowerCase() === cardName.toLowerCase()`). -/
def cardMatches (cardName : String) (c : BattlefieldCard) : Bool :=
  toLowerCase c.name == toLowerCase cardName

/-- JavaScript truthiness of an optional string argument: absent and
empty strings are falsy. -/
def strTruthy (s : Option String) : Bool :=
  match s with
  | some v => v != ""
  | none => false

/-- `statusOperation || 'add'` with JS falsiness. -/
def statusOpOrAdd (s : Option String) : String :=
  match s with
  | some v => if v == "" then "add" else v
  | none => "add"

/-- The `manage_board` board update of `useLiveSession.onmessage`
(lines 552-616): catalog lookup, then the `play` / `remove` /
`update_status` branches over the controller's board.  `uuid` threads
the `crypto.randomUUID()` counter used for instance and status ids;
returns the updated battlefield and counter. -/
def manageBoard (cards : List Card) (uuid : Nat) (bf : Board)
    (action cardName playerName : String)
    (status statusOperation : Option String) : Board × Nat :=
  let card := getCardByName cards cardName
  let playerBoard := (recGet bf playerName).getD []
  if action == "play" && card.isSome then
    match card with
    | some c =>
        let newCard : BattlefieldCard :=
          { instanceId := uuid, oracle_id := c.oracle_id, name := c.name,
            type_line := c.type_line,
            image_uri := match c.image_small with
                         | some u => some u
                         | none => c.image_normal,
            controller := playerName, tapped := false,
            oracle_text := some c.oracle_text, statuses := [] }
        (recSet bf playerName (playerBoard ++ [newCard]), uuid + 1)
    | none => (bf, uuid)
  else if action == "remove" then
    match playerBoard.findIdx? (cardMatches cardName) with
    | some i => (recSet bf playerName (playerBoard.eraseIdx i), uuid)
    | none => (bf, uuid)
  else if action == "update_status" && strTruthy status then
    match status with
    | none => (bf, uuid)
    | some st =>
      match playerBoard.findIdx? (cardMatches cardName) with
      | none => (bf, uuid)
      | some i =>
        match playerBoard.get? i with
        | none => (bf, uuid)
        | some targetCard =>
          let op := statusOpOrAdd statusOperation
          let lowerStatus := toLowerCase st
          if strIncludes lowerStatus "tap" || strIncludes lowerStatus "untap" then
            let targetCard' :=
              { targetCard with tapped := if strIncludes lowerStatus "untap" then false else true }
            (recSet bf playerName (playerBoard.set i targetCard'), uuid)
          else if op == "add" then
            if targetCard.statuses.any (fun sEff => sEff.label == st) then
              (recSet bf playerName (playerBoard.set i targetCard), uuid)
            else
              let visuals := getStatusVisuals st
              let targetCard' :=
                { targetCard with statuses := targetCard.statuses ++
                    [{ id := uuid, label := st, icon := visuals.1, color := visuals.2 }] }
              (recSet bf playerName (playerBoard.set i targetCard'), uuid + 1)
          else
            let targetCard' :=
              { targetCard with statuses := targetCard.statuses.filter (fun sEff => sEff.label != st) }
            (recSet bf playerName (playerBoard.set i targetCard'), uuid)
  else (bf, uuid)

/-- The session-coordinator state shared by the manual UI and the agent
tool dispatch: the database, the roster and per-player session maps of
`useLiveSession` / `AnnouncerView`, and the uuid counter. -/
structure SessionState where
  db : DbState
  sessionPlayers : List PlayerProfile
  battlefield : Board
  currentLife : List (String × Int)
  commanderDamage : CDMap
  gameFormat : String
  customRules : String
  uuid : Nat
deriving Repr, DecidableEq

/-- Player registration as the UI and the `register_players` tool both
perform it: `db.registerSessionPlayers`, roster replacement, battlefield
rebuilt with an empty board per profile (`setManualPlayers` /
`register_players` handler), composed with the `AnnouncerView` life
effect that fires on every roster change.  The commander-damage matrix
is left untouched — no code resets it. -/
def registerPlayersStep (s : SessionState) (names : List String) : SessionState :=
  let r := registerSessionPlayers s.db names
  let profiles := r.1
  let initialBoard : Board :=
    profiles.foldl (fun b p => recSet b p.name ([] : List BattlefieldCard)) []
  { s with db := r.2, sessionPlayers := profiles, battlefield := initialBoard,
           currentLife := initLifeEffect profiles s.currentLife }

/-- The duck-typed argument object of an inbound tool call (`fc.args`):
every property any handler reads, with JS-absent defaults. -/
structure ToolArgs where
  playerNames : List String := []
  format : String := ""
  rules : String := ""
  action : String := ""
  cardName : String := ""
  playerName : String := ""
  status : Option String := none
  statusOperation : Option String := none
  player1 : String := ""
  player2 : String := ""
  mode : String := ""
  winnerName : String := ""
deriving Repr, DecidableEq

/-- One inbound function call from the agent (`fc` in
`message.toolCall.functionCalls`). -/
structure ToolCall where
  id : String
  name : String
  args : ToolArgs
deriving Repr, DecidableEq

/-- The `result` object built for a function call: either a failure
description (`\x7b error: ... \x7d`) or a success/text payload. -/
inductive ToolResult where
  | failure : String → ToolResult
  | ok : String → ToolResult
deriving Repr, DecidableEq

/-- One entry of the `functionResponses` array sent back via
`sendToolResponse`. -/
structure ToolResponse where
  id : String
  name : String
  response : ToolResult
deriving Repr, DecidableEq

/-- The per-call dispatch of `useLiveSession.onmessage` (lines 527-655):
the if-chain over the fixed tool registry, defaulting to
`\x7b error: "Unknown tool" \x7d`, each branch mutating the session state and
producing the `result` payload of the correlated response. -/
def handleToolCall (s : SessionState) (fc : ToolCall) : ToolResult × SessionState :=
  if fc.name == "register_players" then
    let s' := registerPlayersStep s fc.args.playerNames
    (ToolResult.ok ("registeredCount " ++ toString s'.sessionPlayers.length), s')
  else if fc.name == "set_game_format" then
    let db' := { s.db with settings := some ⟨fc.args.format, s.customRules⟩ }
    let s' := { s with gameFormat := fc.args.format, db := db' }
    (ToolResult.ok ("formatSetTo " ++ fc.args.format), s')
  else if fc.name == "set_custom_rules" then
    let db' := { s.db with settings := some ⟨s.gameFormat, fc.args.rules⟩ }
    let s' := { s with customRules := fc.args.rules, db := db' }
    (ToolResult.ok "rulesRecorded", s')
  else if fc.name == "manage_board" then
    let r := manageBoard s.db.cards s.uuid s.battlefield
      fc.args.action fc.args.cardName fc.args.playerName fc.args.status fc.args.statusOperation
    (ToolResult.ok ("Action " ++ fc.args.action ++ " performed on " ++ fc.args.cardName),
     { s with battlefield := r.1, uuid := r.2 })
  else if fc.name == "get_player_stats" then
    match getPlayerStats s.db fc.args.player1 fc.args.player2 with
    | none => (ToolResult.failure "Players not found in history.", s)
    | some stats =>
        if fc.args.mode == "one_on_one" then
          (ToolResult.ok ("1v1 " ++ stats.p1Name ++ " " ++ toString stats.p1Wins1v1 ++
            " " ++ stats.p2Name ++ " " ++ toString stats.p2Wins1v1), s)
        else
          (ToolResult.ok ("total " ++ stats.p1Name ++ " " ++ toString stats.p1WinsTotal ++
            " " ++ stats.p2Name ++ " " ++ toString stats.p2WinsTotal), s)
  else if fc.name == "record_win" then
    match s.sessionPlayers.find?
        (fun p => toLowerCase p.name == toLowerCase fc.args.winnerName) with
    | some winner =>
        let loserNames := (s.sessionPlayers.filter (fun p => p.id != winner.id)).map
          (fun p => p.name)
        let mtype := if s.sessionPlayers.length == 2 then "1v1" else "multiplayer"
        (ToolResult.ok "saved",
         { s with db := recordMatchResult s.db winner.name loserNames mtype })
    | none => (ToolResult.failure "Winner not found in current session players.", s)
  else (ToolResult.failure "Unknown tool", s)

/-- The dispatch loop over `message.toolCall.functionCalls`: every call
is handled in order and pushes exactly one `\x7b id, name, response \x7d`
entry onto the `responses` array handed to `sendToolResponse`. -/
def dispatchCalls (s : SessionState) : List ToolCall → List ToolResponse × SessionState
  | [] => ([], s)
  | fc :: rest =>
      let r := handleToolCall s fc
      let rest' := dispatchCalls r.2 rest
      ({ id := fc.id, name := fc.name, response := r.1 } :: rest'.1, rest'.2)

/-- One inbound audio chunk as the playback scheduler sees it: its
decoded duration and the output context's clock at processing time. -/
structure ChunkInput where
  duration : ℚ
  ctxTime : ℚ
deriving Repr, DecidableEq

/-- The watermark scheduling of `useLiveSession.onmessage` (lines
670-680) applied to a sequence of chunks in arrival order: each chunk
starts at `max nextStartTime ctx.currentTime`, and the watermark then
advances by the chunk's duration.  Returns the scheduled
`(start, start + duration)` windows. -/
def scheduleChunks (w : ℚ) : List ChunkInput → List (ℚ × ℚ)
  | [] => []
  | c :: rest =>
      let start := max w c.ctxTime
      (start, start + c.duration) :: scheduleChunks (start + c.duration) rest

/-- The resources and refs touched by `useLiveSession.disconnect`
(lines 703-723).  Fields named `...Ref` model the hook's ref cells;
the list fields model the external resources those refs point into
(open sessions, active interval timers, running audio contexts, live
capture tracks, attached mixer nodes, scheduled buffer sources). -/
structure AgentResources where
  currentSessionRef : Option Nat
  openSessions : List Nat
  frameIntervalRef : Option Nat
  activeTimers : List Nat
  inputCtxRef : Option Nat
  outputCtxRef : Option Nat
  openContexts : List Nat
  inputStreamsRef : List Nat
  liveTracks : List Nat
  remoteSourcesRef : List (String × Nat)
  attachedNodes : List Nat
  sourcesRef : List Nat
  scheduledSources : List Nat
  isConnected : Bool
  isStreaming : Bool
  errorMsg : Option String
  sessionPlayersLive : List PlayerProfile
  battlefieldLive : Board
deriving Repr, DecidableEq

/-- Release one handle from a pool when the ref holds it (the
`if (ref.current) ...close()` pattern; releasing an already-released
handle is a no-op of the external API). -/
def releaseHandle (pool : List Nat) (ref : Option Nat) : List Nat :=
  match ref with
  | some h => pool.filter (fun x => x != h)
  | none => pool

/-- `useLiveSession.disconnect`: close the session, clear the frame
timer, close both audio contexts, stop every tracked capture track,
detach every remote mixer node, stop every scheduled source, then reset
the React state (flags, roster, battlefield).  The refs to the session,
timer and contexts are not nulled by the source — only the list-valued
refs are emptied. -/
def disconnectFn (r : AgentResources) : AgentResources :=
  { currentSessionRef := r.currentSessionRef,
    openSessions := releaseHandle r.openSessions r.currentSessionRef,
    frameIntervalRef := r.frameIntervalRef,
    activeTimers := releaseHandle r.activeTimers r.frameIntervalRef,
    inputCtxRef := r.inputCtxRef,
    outputCtxRef := r.outputCtxRef,
    openContexts := releaseHandle (releaseHandle r.openContexts r.inputCtxRef) r.outputCtxRef,
    inputStreamsRef := [],
    liveTracks := r.liveTracks.filter (fun t => !(r.inputStreamsRef.contains t)),
    remoteSourcesRef := [],
    attachedNodes := r.attachedNodes.filter
      (fun n => !(r.remoteSourcesRef.any (fun kv => kv.2 == n))),
    sourcesRef := [],
    scheduledSources := r.scheduledSources.filter (fun p => !(r.sourcesRef.contains p)),
    isConnected := false, isStreaming := false, errorMsg := none,
    sessionPlayersLive := [], battlefieldLive := [] }

/-- The peer-network resources released by the `usePeerNetwork` cleanup
(`peer.destroy()`): the identity and every open channel and call. -/
structure PeerResources where
  destroyed : Bool
  openConnections : List Nat
  identityHeld : Bool
deriving Repr, DecidableEq

/-- `peer.destroy()`: closes all connections, releases the identity,
and marks the peer destroyed; PeerJS documents it as safe to repeat. -/
def destroyPeer (_ : PeerResources) : PeerResources :=
  { destroyed := true, openConnections := [], identityHeld := false }

/-- A live data connection as `usePeerNetwork` tracks it
(`DataConnection`): the remote peer id and a handle distinguishing
physical connections. -/
structure ConnEntry where
  peer : String
  connId : Nat
deriving Repr, DecidableEq

/-- A registered remote media stream (`PeerStream` in `types.ts`). -/
structure StreamEntry where
  peerId : String
  streamId : Nat
deriving Repr, DecidableEq

/-- The host-side live participant state of `usePeerNetwork`. -/
structure PeerNetState where
  connections : List ConnEntry
  remoteStreams : List StreamEntry
deriving Repr, DecidableEq

/-- The connection-lifecycle events the host handles: a data connection
opening (`peer.on('connection')` → `setupDataConnection`), a call
delivering a stream (`call.on('stream')`), and a data connection
closing (`conn.on('close')`). -/
inductive PeerEvent where
  | connOpen : String → Nat → PeerEvent
  | callStream : String → Nat → PeerEvent
  | connClose : String → Nat → PeerEvent
deriving Repr, DecidableEq

/-- The host handlers of `usePeerNetwork` (lines 47-63 and 95-107):
`connOpen` appends the connection unconditionally; `callStream` adds
the stream only when no entry for that peer id exists (keeping the old
one); `connClose` removes every connection and stream of that peer id. -/
def stepPeer (s : PeerNetState) (e : PeerEvent) : PeerNetState :=
  match e with
  | .connOpen p cid =>
      { s with connections := s.connections ++ [{ peer := p, connId := cid }] }
  | .callStream p sid =>
      { s with remoteStreams :=
          if (s.remoteStreams.find? (fun st => st.peerId == p)).isSome then s.remoteStreams
          else s.remoteStreams ++ [{ peerId := p, streamId := sid }] }
  | .connClose p _ =>
      { s with connections := s.connections.filter (fun c => c.peer != p),
               remoteStreams := s.remoteStreams.filter (fun st => st.peerId != p) }

/-- Fold a sequence of peer events from a starting state. -/
def runPeerEvents (s : PeerNetState) (es : List PeerEvent) : PeerNetState :=
  es.foldl stepPeer s

/-- Fold a sequence of `adjustCommanderDamage` calls
`(victim, attacker, delta)` from a starting matrix. -/
def applyCDCalls (cd : CDMap) : List (String × String × Int) → CDMap
  | [] => cd
  | c :: rest => applyCDCalls (adjustCommanderDamage cd c.1 c.2.1 c.2.2) rest

/-- The stored commander damage for a (victim, attacker) pair, with the
code's `|| 0` read-out. -/
def cdGet (cd : CDMap) (victim attacker : String) : Int :=
  (recGet ((recGet cd victim).getD []) attacker).getD 0

/-! ### Lemmas about the JS-object model -/

theorem recGet_nil {α : Type} (k : String) : recGet ([] : List (String × α)) k = none := rfl

theorem recGet_cons {α : Type} (a : String × α) (m : List (String × α)) (k : String) :
    recGet (a :: m) k = if a.1 == k then some a.2 else recGet m k := by
  simp only [recGet, List.find?]
  cases h : (a.1 == k) <;> simp [h]

theorem recGet_append_some {α : Type} {m₁ : List (String × α)} (m₂ : List (String × α))
    {k : String} {v : α} (h : recGet m₁ k = some v) : recGet (m₁ ++ m₂) k = some v := by
  induction m₁ with
  | nil => simp [recGet_nil] at h
  | cons a t ih =>
      rw [recGet_cons] at h
      rw [List.cons_append, recGet_cons]
      by_cases hk : a.1 == k
      · simpa [hk] using h
      · simp only [hk] at h ⊢
        simpa using ih h

theorem recGet_append_none {α : Type} {m₁ : List (String × α)} (m₂ : List (String × α))
    {k : String} (h : recGet m₁ k = none) : recGet (m₁ ++ m₂) k = recGet m₂ k := by
  induction m₁ with
  | nil => simp
  | cons a t ih =>
      rw [recGet_cons] at h
      rw [List.cons_append, recGet_cons]
      by_cases hk : a.1 == k
      · simp [hk] at h
      · simp only [hk] at h ⊢
        simpa using ih h

theorem recGet_eq_none_iff_any {α : Type} (m : List (String × α)) (k : String) :
    recGet m k = none ↔ m.any (fun kv => kv.1 == k) = false := by
  induction m with
  | nil => simp [recGet_nil]
  | cons a t ih =>
      rw [recGet_cons]
      by_cases hk : a.1 == k <;> simp [hk, ih]

theorem recGet_map_upd {α : Type} (m : List (String × α)) (k k' : String) (v : α) :
    recGet (m.map (fun kv => if kv.1 == k then (kv.1, v) else kv)) k' =
      if k' = k then (recGet m k).map (fun _ => v) else recGet m k' := by
  induction m with
  | nil => simp [recGet_nil]
  | cons a t ih =>
      rw [List.map_cons, recGet_cons, recGet_cons, recGet_cons]
      have hfst : (if (a.1 == k) = true then (a.1, v) else a).1 = a.1 := by
        split <;> rfl
      rw [hfst]
      by_cases hk : k' = k
      · by_cases hak : (a.1 == k) = true
        · have hac : (a.1 == k') = true := by rw [hk]; exact hak
          simp only [if_pos hak, if_pos hac, if_pos hk, Option.map_some']
        · have hac : ¬ (a.1 == k') = true := by rw [hk]; exact hak
          simp only [if_neg hak, if_neg hac, if_pos hk]
          rw [ih, if_pos hk]
      · by_cases hac : (a.1 == k') = true
        · have hak : ¬ (a.1 == k) = true := by
            intro hcon
            exact hk (((beq_iff_eq.mp hac).symm.trans (beq_iff_eq.mp hcon)))
          simp only [if_pos hac, if_neg hak, if_neg hk]
        · simp only [if_neg hac, if_neg hk]
          rw [ih, if_neg hk]

theorem recGet_recSet {α : Type} (m : List (String × α)) (k : String) (v : α) (k' : String) :
    recGet (recSet m k v) k' = if k' = k then some v else recGet m k' := by
  unfold recSet
  by_cases hmem : (m.any fun kv => kv.1 == k) = true
  · rw [if_pos hmem, recGet_map_upd]
    by_cases hk : k' = k
    · rw [if_pos hk, if_pos hk]
      rcases ho : recGet m k with _ | w
      · rw [(recGet_eq_none_iff_any m k).mp ho] at hmem; simp at hmem
      · rfl
    · rw [if_neg hk, if_neg hk]
  · rw [if_neg hmem]
    have hnone : recGet m k = none := by
      rw [recGet_eq_none_iff_any]
      exact Bool.eq_false_iff.mpr hmem
    by_cases hk : k' = k
    · subst hk
      rw [recGet_append_none _ hnone, recGet_cons, if_pos rfl]
      simp
    · rcases ho : recGet m k' with _ | w
      · rw [recGet_append_none _ ho, recGet_cons]
        have hne : ¬ ((k, v).1 == k') = true := by
          simp only [beq_iff_eq]
          exact fun hkk => hk hkk.symm
        rw [if_neg hne, if_neg hk]
        rfl
      · rw [recGet_append_some _ ho, if_neg hk]

theorem recGet_foldl_set {α : Type} (l : List String) (g : String → α)
    (acc : List (String × α)) (k : String) :
    recGet (l.foldl (fun a n => recSet a n (g n)) acc) k =
      if k ∈ l then some (g k) else recGet acc k := by
  induction l generalizing acc with
  | nil => simp
  | cons n t ih =>
      simp only [List.foldl_cons, ih, List.mem_cons]
      by_cases hkt : k ∈ t
      · simp [hkt]
      · by_cases hkn : k = n
        · subst hkn; simp [hkt, recGet_recSet]
        · simp [hkn, hkt, recGet_recSet]

theorem mem_recSet_cases {α : Type} {m : List (String × α)} {k : String} {v : α}
    {pr : String × α} (h : pr ∈ recSet m k v) : pr.2 = v ∨ pr ∈ m := by
  unfold recSet at h
  split at h
  · obtain ⟨kv, hkv, heq⟩ := List.mem_map.mp h
    by_cases hk : kv.1 == k
    · rw [if_pos hk] at heq
      left; rw [← heq]
    · rw [if_neg hk] at heq
      right; rwa [← heq]
  · rcases List.mem_append.mp h with hm | hs
    · right; exact hm
    · left
      rw [List.mem_singleton.mp hs]

theorem nodupKeys_recSet {α : Type} {m : List (String × α)} (h : NodupKeys m)
    (k : String) (v : α) : NodupKeys (recSet m k v) := by
  unfold recSet
  by_cases hany : (m.any fun kv => kv.1 == k) = true
  · rw [if_pos hany]
    unfold NodupKeys
    have hkeys : (m.map (fun kv => if kv.1 == k then (kv.1, v) else kv)).map Prod.fst
        = m.map Prod.fst := by
      rw [List.map_map]
      apply List.map_congr_left
      intro kv _
      show (if (kv.1 == k) = true then (kv.1, v) else kv).1 = kv.1
      split <;> rfl
    rw [hkeys]; exact h
  · rw [if_neg hany]
    unfold NodupKeys
    rw [List.map_append, List.nodup_append]
    refine ⟨h, by simp, ?_⟩
    intro x hx hx'
    simp only [List.map_cons, List.map_nil, List.mem_singleton] at hx'
    subst hx'
    obtain ⟨kv, hkv, hfst⟩ := List.mem_map.mp hx
    apply hany
    exact List.any_eq_true.mpr ⟨kv, hkv, by simp [hfst]⟩

theorem recGet_mem {α : Type} {m : List (String × α)} {k : String} {x : α}
    (h : recGet m k = some x) : (k, x) ∈ m := by
  unfold recGet at h
  obtain ⟨kv, hfind, hsnd⟩ := Option.map_eq_some'.mp h
  have hk0 := List.find?_some hfind
  have hk : (kv.1 == k) = true := hk0
  have hmem : kv ∈ m := List.mem_of_find?_eq_some hfind
  obtain ⟨a, b⟩ := kv
  have ha : a = k := beq_iff_eq.mp hk
  have hb : b = x := hsnd
  subst ha
  subst hb
  exact hmem

theorem recGet_of_mem_nodup {α : Type} {m : List (String × α)} (h : NodupKeys m)
    {k : String} {x : α} (hm : (k, x) ∈ m) : recGet m k = some x := by
  induction m with
  | nil => simp at hm
  | cons a t ih =>
      rw [recGet_cons]
      rcases List.mem_cons.mp hm with heq | hmt
      · rw [← heq]; simp
      · have hk : ¬ (a.1 == k) := by
          intro hak
          have hkin : k ∈ t.map Prod.fst := List.mem_map.mpr ⟨(k, x), hmt, rfl⟩
          unfold NodupKeys at h
          rw [List.map_cons, List.nodup_cons] at h
          exact h.1 (beq_iff_eq.mp hak ▸ hkin)
        rw [if_neg hk]
        have ht : NodupKeys t := by
          unfold NodupKeys at h ⊢
          rw [List.map_cons, List.nodup_cons] at h
          exact h.2
        exact ih ht hmt

theorem recGet_foldl_profiles {α : Type} (l : List PlayerProfile) (g : String → α)
    (acc : List (String × α)) (k : String) :
    recGet (l.foldl (fun a p => recSet a p.name (g p.name)) acc) k =
      if k ∈ l.map PlayerProfile.name then some (g k) else recGet acc k := by
  induction l generalizing acc with
  | nil => simp
  | cons q t ih =>
      simp only [List.foldl_cons, ih, List.map_cons, List.mem_cons]
      by_cases hkt : k ∈ t.map PlayerProfile.name
      · simp [hkt]
      · by_cases hkq : k = q.name
        · subst hkq; simp [hkt, recGet_recSet]
        · simp [hkq, hkt, recGet_recSet]

/-! ### C10 -/

/-- C10: for a player whose stored life is nonzero, `adjustLife` yields
old life plus delta; a stored 0 (like a missing entry) is treated as the
default 40, yielding `40 + delta`; and the life-initialization effect
resets a stored 0 to 40 for any roster member. -/
theorem adjustLife_zero_treated_as_default (life : List (String × Int)) (p : String)
    (dlt v : Int) (profiles : List PlayerProfile) :
    (recGet life p = some v → v ≠ 0 →
       recGet (adjustLife life p dlt) p = some (v + dlt)) ∧
    (recGet life p = some 0 →
       recGet (adjustLife life p dlt) p = some (40 + dlt)) ∧
    (recGet life p = none →
       recGet (adjustLife life p dlt) p = some (40 + dlt)) ∧
    (p ∈ profiles.map PlayerProfile.name → recGet life p = some 0 →
       recGet (initLifeEffect profiles life) p = some 40) := by
  refine ⟨?_, ?_, ?_, ?_⟩
  · intro hv hnz
    unfold adjustLife
    rw [recGet_recSet, if_pos rfl, hv]
    unfold jsOrInt
    simp [hnz]
  · intro hv
    unfold adjustLife
    rw [recGet_recSet, if_pos rfl, hv]
    unfold jsOrInt
    simp
  · intro hv
    unfold adjustLife
    rw [recGet_recSet, if_pos rfl, hv]
    unfold jsOrInt
    simp
  · intro hmem hv
    have hlen : 0 < profiles.length := by
      cases profiles with
      | nil => simp at hmem
      | cons q t => simp
    unfold initLifeEffect
    rw [if_pos hlen]
    have hfold := recGet_foldl_profiles profiles
      (fun n => jsOrInt (recGet life n) 40) [] p
    simp only at hfold
    rw [hfold, if_pos hmem, hv]
    rfl

/-- Witness for `adjustLife_zero_treated_as_default` at a concrete
state: Alice on 40 loses 3 to 37, Bob on 0 gains 2 to 42, and the
roster effect resets Carol's 0 to 40. -/
theorem adjustLife_zero_treated_as_default_witness :
    (recGet [("Alice", (40 : Int)), ("Bob", 0)] "Alice" = some 40 ∧
     recGet (adjustLife [("Alice", (40 : Int)), ("Bob", 0)] "Alice" (-3)) "Alice" = some 37) ∧
    (recGet [("Alice", (40 : Int)), ("Bob", 0)] "Bob" = some 0 ∧
     recGet (adjustLife [("Alice", (40 : Int)), ("Bob", 0)] "Bob" 2) "Bob" = some 42) ∧
    recGet (initLifeEffect [⟨7, "Carol"⟩] [("Carol", 0)]) "Carol" = some 40 := by
  refine ⟨⟨by decide, ?_⟩, ⟨by decide, ?_⟩, ?_⟩
  · have h := (adjustLife_zero_treated_as_default
      [("Alice", (40 : Int)), ("Bob", 0)] "Alice" (-3) 40 []).1 (by decide) (by decide)
    simpa using h
  · have h := (adjustLife_zero_treated_as_default
      [("Alice", (40 : Int)), ("Bob", 0)] "Bob" 2 0 []).2.1 (by decide)
    simpa using h
  · exact (adjustLife_zero_treated_as_default [("Carol", 0)] "Carol" 0 0
      [⟨7, "Carol"⟩]).2.2.2 (by decide) (by decide)

/-! ### C4 -/

/-- Re-registering a name equal up to trimming and letter casing
resolves to the very same profile and leaves the store untouched. -/
theorem registerOne_idem (d : DbState) (n1 n2 : String)
    (h : toLowerCase (jsTrim n1) = toLowerCase (jsTrim n2)) :
    registerOne (registerOne d n1).2 n2 = registerOne d n1 := by
  unfold registerOne
  rcases hf : d.players.find? (fun p => toLowerCase p.name == toLowerCase (jsTrim n1)) with _ | p
  · simp only [hf]
    have hfind2 : (d.players ++
        [({ id := d.nextPlayerId, name := jsTrim n1 } : PlayerProfile)]).find?
          (fun p => toLowerCase p.name == toLowerCase (jsTrim n2)) =
        some { id := d.nextPlayerId, name := jsTrim n1 } := by
      rw [List.find?_append]
      have h1 : d.players.find? (fun p => toLowerCase p.name == toLowerCase (jsTrim n2)) = none := by
        rw [← h]
        exact hf
      rw [h1]
      simp only [Option.none_or, List.find?]
      have : (toLowerCase ({ id := d.nextPlayerId, name := jsTrim n1 } : PlayerProfile).name
          == toLowerCase (jsTrim n2)) = true := by
        show (toLowerCase (jsTrim n1) == toLowerCase (jsTrim n2)) = true
        rw [h]
        exact beq_self_eq_true _
      rw [this]
    simp only [hfind2]
  · simp only [hf]
    have hfind2 : d.players.find? (fun q => toLowerCase q.name == toLowerCase (jsTrim n2))
        = some p := by
      rw [← h]
      exact hf
    simp only [hfind2]

/-- C4: registering a name that differs from an already-resolvable name
only by trimming/letter casing never creates a second profile — the
second call returns the same profile (same id) as the first, and the
stored profile table does not grow. -/
theorem registerSessionPlayers_singleton (d : DbState) (n : String) :
    registerSessionPlayers d [n] = ([(registerOne d n).1], (registerOne d n).2) := rfl

theorem register_case_insensitive_no_duplicate (d : DbState) (n1 n2 : String)
    (h : toLowerCase (jsTrim n1) = toLowerCase (jsTrim n2)) :
    (registerSessionPlayers (registerSessionPlayers d [n1]).2 [n2]).1
      = (registerSessionPlayers d [n1]).1 ∧
    (registerSessionPlayers (registerSessionPlayers d [n1]).2 [n2]).2
      = (registerSessionPlayers d [n1]).2 := by
  have hone := registerOne_idem d n1 n2 h
  constructor
  · simp [registerSessionPlayers_singleton, hone]
  · simp [registerSessionPlayers_singleton, hone]

/-- Witness for `register_case_insensitive_no_duplicate`: registering
"Alice" then "ALICE" into an empty store keeps one profile with id 1. -/
theorem register_case_insensitive_no_duplicate_witness :
    toLowerCase (jsTrim "Alice") = toLowerCase (jsTrim "ALICE") ∧
    (registerSessionPlayers
      (registerSessionPlayers ⟨[], 1, [], [], none⟩ ["Alice"]).2 ["ALICE"]).1
        = (registerSessionPlayers ⟨[], 1, [], [], none⟩ ["Alice"]).1 ∧
    (registerSessionPlayers
      (registerSessionPlayers ⟨[], 1, [], [], none⟩ ["Alice"]).2 ["ALICE"]).2
        = (registerSessionPlayers ⟨[], 1, [], [], none⟩ ["Alice"]).2 := by
  refine ⟨by decide, ?_⟩
  exact register_case_insensitive_no_duplicate ⟨[], 1, [], [], none⟩ "Alice" "ALICE" (by decide)

/-! ### C2 -/

/-- C2: the tool-dispatch loop answers every inbound function call with
exactly one response carrying that call's id (and name), in order,
regardless of the call's name being known and of its handler reporting
success or failure; unknown names and handler failures produce a
response carrying an error description instead of going unanswered. -/
theorem dispatch_one_response_per_call (s : SessionState) (fcs : List ToolCall) :
    (dispatchCalls s fcs).1.map ToolResponse.id = fcs.map ToolCall.id ∧
    (dispatchCalls s fcs).1.map ToolResponse.name = fcs.map ToolCall.name := by
  induction fcs generalizing s with
  | nil => simp [dispatchCalls]
  | cons fc rest ih =>
      unfold dispatchCalls
      constructor
      · simp [(ih (handleToolCall s fc).2).1]
      · simp [(ih (handleToolCall s fc).2).2]

/-! ### C3 -/

/-- The commander-damage well-formedness invariant: distinct victim
keys, distinct attacker keys per victim, and no negative stored value. -/
def CDInv (cd : CDMap) : Prop :=
  NodupKeys cd ∧ ∀ vr ∈ cd, NodupKeys vr.2 ∧ ∀ ar ∈ vr.2, 0 ≤ ar.2

theorem cdInv_empty : CDInv [] := by
  refine ⟨by simp [NodupKeys], ?_⟩
  intro vr h
  simp at h

theorem cdInv_adjust {cd : CDMap} (hinv : CDInv cd) (victim attacker : String)
    (amount : Int) : CDInv (adjustCommanderDamage cd victim attacker amount) := by
  unfold adjustCommanderDamage
  have hvrec : NodupKeys ((recGet cd victim).getD []) ∧
      ∀ ar ∈ (recGet cd victim).getD [], 0 ≤ ar.2 := by
    rcases hv : recGet cd victim with _ | vrec
    · constructor
      · simp [NodupKeys]
      · intro ar h; simp at h
    · have hmem : (victim, vrec) ∈ cd := recGet_mem hv
      have := hinv.2 (victim, vrec) hmem
      simpa using this
  constructor
  · exact nodupKeys_recSet hinv.1 _ _
  · intro vr hvr
    rcases mem_recSet_cases hvr with hnew | hold
    · rw [hnew]
      constructor
      · exact nodupKeys_recSet hvrec.1 _ _
      · intro ar har
        rcases mem_recSet_cases har with hnewa | holda
        · rw [hnewa]
          exact le_max_left 0 _
        · exact hvrec.2 ar holda
    · exact hinv.2 vr hold

theorem cdInv_apply (calls : List (String × String × Int)) :
    ∀ cd : CDMap, CDInv cd → CDInv (applyCDCalls cd calls) := by
  induction calls with
  | nil => intro cd h; exact h
  | cons c rest ih =>
      intro cd h
      exact ih _ (cdInv_adjust h c.1 c.2.1 c.2.2)

theorem cdGet_nonneg_of_inv {cd : CDMap} (hinv : CDInv cd) (v a : String) :
    0 ≤ cdGet cd v a := by
  unfold cdGet
  rcases hv : recGet cd v with _ | vrec
  · simp [recGet_nil]
  · have hmem : (v, vrec) ∈ cd := recGet_mem hv
    have hrec := hinv.2 (v, vrec) hmem
    simp only [Option.getD_some]
    rcases ha : recGet vrec a with _ | d
    · simp
    · simpa using hrec.2 (a, d) (recGet_mem ha)

theorem lethal_iff_of_inv {cd : CDMap} (hinv : CDInv cd) (v a : String) :
    a ∈ getLethalSources cd v ↔ 21 ≤ cdGet cd v a := by
  unfold getLethalSources cdGet
  rcases hv : recGet cd v with _ | vrec
  · simp [recGet_nil]
  · have hmem : (v, vrec) ∈ cd := recGet_mem hv
    have hrec := hinv.2 (v, vrec) hmem
    simp only [Option.getD_some]
    constructor
    · intro hin
      obtain ⟨pr, hprf, hpr1⟩ := List.mem_map.mp hin
      have hprm := List.mem_filter.mp hprf
      have h21 : (21 : Int) ≤ pr.2 := by
        have := hprm.2
        exact of_decide_eq_true this
      have hget : recGet vrec a = some pr.2 := by
        apply recGet_of_mem_nodup hrec.1
        have : pr = (a, pr.2) := by
          rw [← hpr1]
        rw [← this]
        exact hprm.1
      rw [hget]
      simpa using h21
    · intro h21
      rcases ha : recGet vrec a with _ | d
      · rw [ha] at h21
        simp at h21
      · rw [ha] at h21
        simp only [Option.getD_some] at h21
        have hmema : (a, d) ∈ vrec := recGet_mem ha
        apply List.mem_map.mpr
        refine ⟨(a, d), ?_, rfl⟩
        apply List.mem_filter.mpr
        exact ⟨hmema, decide_eq_true h21⟩

/-- C3: over every sequence of `adjustCommanderDamage` calls from the
initial empty matrix, the stored damage for each (victim, attacker)
pair is never negative, and the victim's lethal flag for an attacker is
set exactly when the stored value is at least 21; in particular the
21-then-minus-1 scenario gives value 21 with the flag, then value 20
without it. -/
theorem commanderDamage_nonneg_lethal_iff (calls : List (String × String × Int))
    (v a : String) :
    0 ≤ cdGet (applyCDCalls [] calls) v a ∧
    (a ∈ getLethalSources (applyCDCalls [] calls) v ↔
      21 ≤ cdGet (applyCDCalls [] calls) v a) ∧
    (cdGet (adjustCommanderDamage [] "P1" "P2" 21) "P1" "P2" = 21 ∧
     "P2" ∈ getLethalSources (adjustCommanderDamage [] "P1" "P2" 21) "P1" ∧
     cdGet (adjustCommanderDamage (adjustCommanderDamage [] "P1" "P2" 21) "P1" "P2" (-1))
       "P1" "P2" = 20 ∧
     "P2" ∉ getLethalSources
       (adjustCommanderDamage (adjustCommanderDamage [] "P1" "P2" 21) "P1" "P2" (-1)) "P1") := by
  have hinv := cdInv_apply calls [] cdInv_empty
  refine ⟨cdGet_nonneg_of_inv hinv v a, lethal_iff_of_inv hinv v a, by decide⟩

/-! ### C5 -/

theorem scheduleChunks_bounds : ∀ (cs : List ChunkInput) (w : ℚ),
    (∀ c ∈ cs, 0 ≤ c.duration) →
    ∀ p ∈ scheduleChunks w cs, w ≤ p.1 ∧ p.1 ≤ p.2 := by
  intro cs
  induction cs with
  | nil =>
      intro w _ p hp
      simp [scheduleChunks] at hp
  | cons c rest ih =>
      intro w hdur p hp
      simp only [scheduleChunks] at hp
      rcases List.mem_cons.mp hp with h | h
      · subst h
        refine ⟨le_max_left w c.ctxTime, ?_⟩
        have hd := hdur c (List.mem_cons_self c rest)
        simp only
        linarith
      · have hb := ih (max w c.ctxTime + c.duration)
          (fun x hx => hdur x (List.mem_cons_of_mem _ hx)) p h
        have hd := hdur c (List.mem_cons_self c rest)
        have hw : w ≤ max w c.ctxTime + c.duration := by
          have := le_max_left w c.ctxTime
          linarith
        exact ⟨le_trans hw hb.1, hb.2⟩

theorem scheduleChunks_pairwise_sep : ∀ (cs : List ChunkInput) (w : ℚ),
    (∀ c ∈ cs, 0 ≤ c.duration) →
    (scheduleChunks w cs).Pairwise (fun p q => p.2 ≤ q.1) := by
  intro cs
  induction cs with
  | nil => intro w _; simp [scheduleChunks]
  | cons c rest ih =>
      intro w hdur
      simp only [scheduleChunks]
      apply List.Pairwise.cons
      · intro q hq
        have hb := scheduleChunks_bounds rest (max w c.ctxTime + c.duration)
          (fun x hx => hdur x (List.mem_cons_of_mem _ hx)) q hq
        exact hb.1
      · exact ih _ (fun x hx => hdur x (List.mem_cons_of_mem _ hx))

theorem scheduleChunks_durations : ∀ (cs : List ChunkInput) (w : ℚ),
    (scheduleChunks w cs).map (fun p => p.2 - p.1) = cs.map ChunkInput.duration := by
  intro cs
  induction cs with
  | nil => intro w; rfl
  | cons c rest ih =>
      intro w
      simp [scheduleChunks, ih, add_sub_cancel_left]

/-- C5: for chunks of nonnegative durations processed in arrival order,
whatever the context clock reads at each step, the watermark scheme
(each start is `max watermark ctxTime`, then the watermark advances by
the duration) assigns half-open windows that never overlap and occur in
arrival order, each window exactly as long as its chunk. -/
theorem audio_watermark_no_overlap (w : ℚ) (cs : List ChunkInput)
    (hdur : ∀ c ∈ cs, 0 ≤ c.duration) :
    (scheduleChunks w cs).Pairwise (fun p q => p.2 ≤ q.1) ∧
    (scheduleChunks w cs).Pairwise (fun p q => p.1 ≤ q.1) ∧
    (scheduleChunks w cs).map (fun p => p.2 - p.1) = cs.map ChunkInput.duration := by
  have hsep := scheduleChunks_pairwise_sep cs w hdur
  refine ⟨hsep, ?_, scheduleChunks_durations cs w⟩
  apply List.Pairwise.imp_of_mem ?_ hsep
  intro p q hp _ hpq
  have hb := scheduleChunks_bounds cs w hdur p hp
  exact le_trans hb.2 hpq

/-- Witness for `audio_watermark_no_overlap`: three chunks, the second
arriving while the first still plays and the third after a clock gap. -/
theorem audio_watermark_no_overlap_witness :
    (∀ c ∈ [(⟨2, 0⟩ : ChunkInput), ⟨3, 1⟩, ⟨1, 9⟩], 0 ≤ c.duration) ∧
    ((scheduleChunks 0 [(⟨2, 0⟩ : ChunkInput), ⟨3, 1⟩, ⟨1, 9⟩]).Pairwise
        (fun p q => p.2 ≤ q.1) ∧
     (scheduleChunks 0 [(⟨2, 0⟩ : ChunkInput), ⟨3, 1⟩, ⟨1, 9⟩]).Pairwise
        (fun p q => p.1 ≤ q.1) ∧
     (scheduleChunks 0 [(⟨2, 0⟩ : ChunkInput), ⟨3, 1⟩, ⟨1, 9⟩]).map (fun p => p.2 - p.1)
        = [(⟨2, 0⟩ : ChunkInput), ⟨3, 1⟩, ⟨1, 9⟩].map ChunkInput.duration) :=
  ⟨by decide, audio_watermark_no_overlap 0 [⟨2, 0⟩, ⟨3, 1⟩, ⟨1, 9⟩] (by decide)⟩

/-! ### C8 -/

theorem filter_idem {α : Type} (p : α → Bool) (l : List α) :
    (l.filter p).filter p = l.filter p := by
  rw [List.filter_filter]
  apply List.filter_congr
  intro a _
  exact Bool.and_self _

theorem releaseHandle_idem (pool : List Nat) (ref : Option Nat) :
    releaseHandle (releaseHandle pool ref) ref = releaseHandle pool ref := by
  cases ref with
  | none => rfl
  | some h => exact filter_idem _ pool

theorem releaseHandle_comm (pool : List Nat) (r1 r2 : Option Nat) :
    releaseHandle (releaseHandle pool r1) r2 = releaseHandle (releaseHandle pool r2) r1 := by
  cases r1 with
  | none => rfl
  | some h1 =>
      cases r2 with
      | none => rfl
      | some h2 =>
          show (pool.filter _).filter _ = (pool.filter _).filter _
          rw [List.filter_filter, List.filter_filter]
          apply List.filter_congr
          intro a _
          exact Bool.and_comm _ _

theorem filter_not_mem_nil {α : Type} [BEq α] (l : List α) :
    l.filter (fun t => !(List.contains [] t)) = l :=
  List.filter_eq_self.mpr (fun _ _ => rfl)

theorem releaseHandle_four (oc : List Nat) (i o : Option Nat) :
    releaseHandle (releaseHandle (releaseHandle (releaseHandle oc i) o) i) o
      = releaseHandle (releaseHandle oc i) o := by
  calc releaseHandle (releaseHandle (releaseHandle (releaseHandle oc i) o) i) o
      = releaseHandle (releaseHandle (releaseHandle (releaseHandle oc i) i) o) o := by
        rw [releaseHandle_comm (releaseHandle oc i) o i]
    _ = releaseHandle (releaseHandle (releaseHandle oc i) o) o := by
        rw [releaseHandle_idem oc i]
    _ = releaseHandle (releaseHandle oc i) o := releaseHandle_idem _ _

theorem filter_not_any_nil {α β : Type} (l : List α) (f : β → α → Bool) :
    l.filter (fun n => !(List.any [] (fun kv => f kv n))) = l :=
  List.filter_eq_self.mpr (fun _ _ => rfl)

/-- C8: closing the agent session twice (from any state, including
mid-opening where no session handle resolved yet) produces the same end
state as closing once, and tearing down the peer twice likewise. -/
theorem close_idempotent (r : AgentResources) (p : PeerResources) :
    disconnectFn (disconnectFn r) = disconnectFn r ∧
    destroyPeer (destroyPeer p) = destroyPeer p := by
  constructor
  · unfold disconnectFn
    simp only [AgentResources.mk.injEq, releaseHandle_idem, releaseHandle_four,
      filter_not_mem_nil, filter_not_any_nil, and_true, true_and, and_self]
  · rfl

/-! ### C9 -/

/-- C9 counterexample: two connection-open events for the same peer id
("p1" reconnecting before its old channel closed) leave two
simultaneous live data-connection entries for that peer —
`setupDataConnection` appends without replacing, so "at most one live
entry per peer id" fails as stated. -/
theorem peer_duplicate_connection_counterexample :
    ((runPeerEvents ⟨[], []⟩
        [PeerEvent.connOpen "p1" 0, PeerEvent.connOpen "p1" 1]).connections.filter
        (fun c => c.peer == "p1")).length = 2 := by decide

theorem streams_nodup_step (s : PeerNetState) (e : PeerEvent)
    (h : (s.remoteStreams.map StreamEntry.peerId).Nodup) :
    ((stepPeer s e).remoteStreams.map StreamEntry.peerId).Nodup := by
  cases e with
  | connOpen p cid => exact h
  | callStream p sid =>
      simp only [stepPeer]
      rcases hf : s.remoteStreams.find? (fun st => st.peerId == p) with _ | st
      · rw [hf]
        simp only [Option.isSome_none, Bool.false_eq_true, if_false]
        rw [List.map_append, List.nodup_append]
        refine ⟨h, by simp, ?_⟩
        intro x hx hx'
        simp only [List.map_cons, List.map_nil, List.mem_singleton] at hx'
        subst hx'
        obtain ⟨st', hst', hfst⟩ := List.mem_map.mp hx
        have := List.find?_eq_none.mp hf st' hst'
        simp [hfst] at this
      · rw [hf]
        simpa using h
  | connClose p cid =>
      exact List.Nodup.sublist (List.Sublist.map _ (List.filter_sublist _)) h

theorem streams_nodup_run (es : List PeerEvent) :
    ∀ s : PeerNetState, (s.remoteStreams.map StreamEntry.peerId).Nodup →
      ((runPeerEvents s es).remoteStreams.map StreamEntry.peerId).Nodup := by
  induction es with
  | nil => intro s h; exact h
  | cons e rest ih =>
      intro s h
      exact ih _ (streams_nodup_step s e h)

/-- C9 amended: starting from the empty participant state, the
registered remote media streams always hold at most one entry per peer
id — but a reconnection's stream is ignored while the old entry lives
(kept, not replaced) — while the data connections may hold several
simultaneous entries for one peer id (see the counterexample); a close
event for a peer removes every connection and stream entry of that
peer id. -/
theorem peer_one_stream_per_id_amended (es : List PeerEvent) :
    ((runPeerEvents ⟨[], []⟩ es).remoteStreams.map StreamEntry.peerId).Nodup ∧
    (∀ (s : PeerNetState) (p : String) (sid : Nat),
      ((s.remoteStreams.find? (fun st => st.peerId == p)).isSome = true) →
      (stepPeer s (PeerEvent.callStream p sid)).remoteStreams = s.remoteStreams) ∧
    (∀ (s : PeerNetState) (p : String) (cid : Nat),
      ((stepPeer s (PeerEvent.connClose p cid)).connections.filter
          (fun c => c.peer == p)) = [] ∧
      ((stepPeer s (PeerEvent.connClose p cid)).remoteStreams.filter
          (fun st => st.peerId == p)) = []) := by
  refine ⟨streams_nodup_run es ⟨[], []⟩ (by simp), ?_, ?_⟩
  · intro s p sid hsome
    simp [stepPeer, hsome]
  · intro s p cid
    constructor
    · simp only [stepPeer, List.filter_filter]
      apply List.filter_eq_nil_iff.mpr
      intro a _
      simp only [Bool.and_eq_true, beq_iff_eq, bne_iff_ne]
      intro hcon
      exact hcon.2 hcon.1
    · simp only [stepPeer, List.filter_filter]
      apply List.filter_eq_nil_iff.mpr
      intro a _
      simp only [Bool.and_eq_true, beq_iff_eq, bne_iff_ne]
      intro hcon
      exact hcon.2 hcon.1

/-- Witness for `peer_one_stream_per_id_amended`: a second call from
"p1" while its stream is live leaves the original stream entry in
place. -/
theorem peer_one_stream_per_id_amended_witness :
    (stepPeer ⟨[], [⟨"p1", 5⟩]⟩ (PeerEvent.callStream "p1" 9)).remoteStreams
      = [⟨"p1", 5⟩] :=
  (peer_one_stream_per_id_amended []).2.1 ⟨[], [⟨"p1", 5⟩]⟩ "p1" 9 (by decide)

/-! ### C7 -/

theorem map_set_same {α β : Type} (f : α → β) (l : List α) :
    ∀ (i : Nat) (c c' : α), l.get? i = some c → f c' = f c →
      (l.set i c').map f = l.map f := by
  induction l with
  | nil =>
      intro i c c' h _
      simp at h
  | cons a t ih =>
      intro i c c' h hf
      cases i with
      | zero =>
          simp only [List.get?] at h
          injection h with h
          subst h
          simp only [List.set, List.map_cons]
          rw [hf]
      | succ j =>
          simp only [List.get?] at h
          simp only [List.set, List.map_cons]
          rw [ih j c c' h hf]

theorem get?_set_self {α : Type} (l : List α) :
    ∀ (i : Nat) (c : α), (l.get? i).isSome = true → (l.set i c).get? i = some c := by
  induction l with
  | nil =>
      intro i c h
      simp at h
  | cons a t ih =>
      intro i c h
      cases i with
      | zero => rfl
      | succ j =>
          simp only [List.get?] at h
          exact ih j c h

theorem get?_isSome_of_findIdx?_eq_some {α : Type} {l : List α} {p : α → Bool} {i : Nat}
    (h : l.findIdx? p = some i) : (l.get? i).isSome = true := by
  have h2 := List.findIdx?_eq_some_iff_findIdx_eq.mp h
  rw [List.get?_eq_getElem?, List.getElem?_eq_getElem h2.1]
  rfl

/-- Partial evaluation of `manage_board` on an `update_status` action
with a tap/untap status text when no board card matches: nothing
changes. -/
theorem manageBoard_tap_none (cards : List Card) (uuid : Nat) (bf : Board)
    (cardName playerName st : String) (sop : Option String)
    (hst : (st != "") = true)
    (hidx : ((recGet bf playerName).getD []).findIdx? (cardMatches cardName) = none) :
    manageBoard cards uuid bf "update_status" cardName playerName (some st) sop
      = (bf, uuid) := by
  have hb1 : (("update_status" : String) == "play") = false := by decide
  have hb2 : (("update_status" : String) == "remove") = false := by decide
  have hb3 : (("update_status" : String) == "update_status") = true := by decide
  unfold manageBoard
  simp only [hb1, hb2, hb3, Bool.false_and, Bool.true_and, Bool.false_eq_true, if_false,
    strTruthy, hst, if_true, hidx]

/-- Partial evaluation of `manage_board` on an `update_status` action
whose status text is a tap/untap instruction and whose name matches the
board card at index `i`: that card's tapped boolean is assigned
(`untap` in the text → false, otherwise true) and nothing else
changes. -/
theorem manageBoard_tap_some (cards : List Card) (uuid : Nat) (bf : Board)
    (cardName playerName st : String) (sop : Option String)
    (hst : (st != "") = true)
    (htap : (strIncludes (toLowerCase st) "tap"
              || strIncludes (toLowerCase st) "untap") = true)
    {i : Nat} {c : BattlefieldCard}
    (hidx : ((recGet bf playerName).getD []).findIdx? (cardMatches cardName) = some i)
    (hget : ((recGet bf playerName).getD []).get? i = some c) :
    manageBoard cards uuid bf "update_status" cardName playerName (some st) sop
      = (recSet bf playerName
          (((recGet bf playerName).getD []).set i
            { c with tapped := if strIncludes (toLowerCase st) "untap" then false
                               else true }), uuid) := by
  have hb1 : (("update_status" : String) == "play") = false := by decide
  have hb2 : (("update_status" : String) == "remove") = false := by decide
  have hb3 : (("update_status" : String) == "update_status") = true := by decide
  unfold manageBoard
  simp only [hb1, hb2, hb3, Bool.false_and, Bool.true_and, Bool.false_eq_true, if_false,
    strTruthy, hst, if_true, hidx, hget, htap, eq_self_iff_true]

/-- C7: an `update_status` tool action whose status text is a tap/untap
instruction (the code's test: the lowercased text contains "tap" or
"untap") routes to the dedicated tapped boolean of the first matching
card — false for an untap instruction, true otherwise — and adds no
StatusEffect anywhere: every card's status set on every board is left
exactly as it was. -/
theorem tap_status_routes_to_boolean (cards : List Card) (uuid : Nat) (bf : Board)
    (cardName playerName st : String) (sop : Option String)
    (hst : (st != "") = true)
    (htap : (strIncludes (toLowerCase st) "tap"
              || strIncludes (toLowerCase st) "untap") = true) :
    (∀ n : String,
      ((recGet (manageBoard cards uuid bf "update_status" cardName playerName
          (some st) sop).1 n).getD []).map BattlefieldCard.statuses
        = ((recGet bf n).getD []).map BattlefieldCard.statuses) ∧
    (∀ i : Nat,
      ((recGet bf playerName).getD []).findIdx? (cardMatches cardName) = some i →
      ((((recGet (manageBoard cards uuid bf "update_status" cardName playerName
          (some st) sop).1 playerName).getD []).get? i).map BattlefieldCard.tapped)
        = some (if strIncludes (toLowerCase st) "untap" then false else true)) := by
  constructor
  · intro n
    rcases hidx : ((recGet bf playerName).getD []).findIdx? (cardMatches cardName) with _ | i
    · rw [manageBoard_tap_none cards uuid bf cardName playerName st sop hst hidx]
    · rcases hget : ((recGet bf playerName).getD []).get? i with _ | c
      · have hsome := get?_isSome_of_findIdx?_eq_some hidx
        rw [hget] at hsome
        simp at hsome
      · rw [manageBoard_tap_some cards uuid bf cardName playerName st sop hst htap hidx hget]
        rw [recGet_recSet]
        by_cases hn : n = playerName
        · rw [if_pos hn, hn, Option.getD_some]
          exact map_set_same BattlefieldCard.statuses _ i c _ hget rfl
        · rw [if_neg hn]
  · intro i hidx
    rcases hget : ((recGet bf playerName).getD []).get? i with _ | c
    · have hsome := get?_isSome_of_findIdx?_eq_some hidx
      rw [hget] at hsome
      simp at hsome
    · rw [manageBoard_tap_some cards uuid bf cardName playerName st sop hst htap hidx hget]
      rw [recGet_recSet, if_pos rfl, Option.getD_some]
      have hs : (((recGet bf playerName).getD []).get? i).isSome = true := by
        rw [hget]; rfl
      rw [get?_set_self _ i _ hs]
      rfl

/-- Test fixture: the catalog row for Sol Ring. -/
def solRingCard : Card :=
  ⟨"sr1", "Sol Ring", "Artifact", none, none, "Add two colorless mana."⟩

/-- Test fixture: Alice's board right after `manage_board` plays Sol
Ring onto an empty board. -/
def aliceBoardAfterPlay : Board :=
  (manageBoard [solRingCard] 0 [("Alice", [])] "play" "Sol Ring" "Alice" none none).1

/-- Witness for `tap_status_routes_to_boolean`: playing Sol Ring and
then applying `setCardStatus("Alice", "Sol Ring", "tapped", "add")`
leaves one board entry with tapped = true and an empty status set. -/
theorem tap_status_routes_to_boolean_witness :
    (("tapped" != "") = true ∧
     (strIncludes (toLowerCase "tapped") "tap"
       || strIncludes (toLowerCase "tapped") "untap") = true) ∧
    (((recGet (manageBoard [solRingCard] 1 aliceBoardAfterPlay "update_status" "Sol Ring"
          "Alice" (some "tapped") (some "add")).1 "Alice").getD []).get? 0).map
        BattlefieldCard.tapped = some true ∧
    ((recGet (manageBoard [solRingCard] 1 aliceBoardAfterPlay "update_status" "Sol Ring"
          "Alice" (some "tapped") (some "add")).1 "Alice").getD []).map
        BattlefieldCard.statuses = [[]] := by
  refine ⟨⟨by decide, by decide⟩, ?_, ?_⟩
  · exact ((tap_status_routes_to_boolean [solRingCard] 1 aliceBoardAfterPlay "Sol Ring"
      "Alice" "tapped" (some "add") (by decide) (by decide)).2 0 (by decide)).trans (by decide)
  · exact ((tap_status_routes_to_boolean [solRingCard] 1 aliceBoardAfterPlay "Sol Ring"
      "Alice" "tapped" (some "add") (by decide) (by decide)).1 "Alice").trans (by decide)

/-! ### C1 -/

/-- Test fixture: a fresh session over an empty profile store whose
catalog holds Sol Ring. -/
def freshSession : SessionState :=
  { db := ⟨[], 1, [], [solRingCard], none⟩, sessionPlayers := [], battlefield := [],
    currentLife := [], commanderDamage := [], gameFormat := "Commander", customRules := "",
    uuid := 0 }

/-- Test fixture: the session after `registerPlayers(["Alice","bob"])`. -/
def sessionAliceBob : SessionState := registerPlayersStep freshSession ["Alice", "bob"]

/-- Test fixture: the session after the agent then plays Sol Ring for
Alice through the `manage_board` tool. -/
def sessionAliceSolRing : SessionState :=
  (handleToolCall sessionAliceBob
    ⟨"call-1", "manage_board",
     { action := "play", cardName := "Sol Ring", playerName := "Alice" }⟩).2

/-- Test fixture: the session after `registerPlayers(["ALICE","Carol"])`
re-registers Alice. -/
def sessionAfterReregister : SessionState :=
  registerPlayersStep sessionAliceSolRing ["ALICE", "Carol"]

/-- C1 counterexample: Alice is in the roster with one card on her
board and life 40 when `registerPlayers(["ALICE","Carol"])` runs; the
call reuses her profile (store grows to 3 rows, roster ids [1, 3]) and
preserves her life, but resets her board entry from one card to empty —
so re-registration does not leave an existing player's board
unchanged. -/
theorem reregistration_board_reset_counterexample :
    (recGet sessionAliceSolRing.battlefield "Alice").map List.length = some 1 ∧
    sessionAliceSolRing.sessionPlayers.map PlayerProfile.name = ["Alice", "bob"] ∧
    recGet sessionAliceSolRing.currentLife "Alice" = some 40 ∧
    (recGet sessionAfterReregister.battlefield "Alice").map List.length = some 0 ∧
    recGet sessionAfterReregister.currentLife "Alice" = some 40 ∧
    sessionAfterReregister.db.players.length = 3 ∧
    sessionAfterReregister.sessionPlayers.map PlayerProfile.id = [1, 3] := by decide

/-- C1 amended: every registration call resets the battlefield board of
every registered player — existing roster members included — to empty,
while a re-registered player keeps their life total (a stored 0 or a
missing entry becomes the default 40) and their profile identity is
reused through the case-insensitive store lookup; only the board-
preservation part of the original claim fails. -/
theorem reregistration_resets_board_keeps_life (s : SessionState) (names : List String)
    (n : String)
    (hmem : n ∈ (registerPlayersStep s names).sessionPlayers.map PlayerProfile.name) :
    recGet (registerPlayersStep s names).battlefield n = some [] ∧
    recGet (registerPlayersStep s names).currentLife n
      = some (jsOrInt (recGet s.currentLife n) 40) := by
  simp only [registerPlayersStep] at hmem ⊢
  have hne : (registerSessionPlayers s.db names).1 ≠ [] := by
    intro h0
    rw [h0] at hmem
    simp at hmem
  have hlen : 0 < (registerSessionPlayers s.db names).1.length := List.length_pos.mpr hne
  constructor
  · have hb := recGet_foldl_profiles (registerSessionPlayers s.db names).1
      (fun _ => ([] : List BattlefieldCard)) [] n
    simp only at hb
    rw [hb, if_pos hmem]
  · simp only [initLifeEffect]
    rw [if_pos hlen]
    have hl := recGet_foldl_profiles (registerSessionPlayers s.db names).1
      (fun m => jsOrInt (recGet s.currentLife m) 40) [] n
    simp only at hl
    rw [hl, if_pos hmem]

/-- Witness for `reregistration_resets_board_keeps_life` on the
re-registration scenario state. -/
theorem reregistration_resets_board_keeps_life_witness :
    ("Alice" ∈ (registerPlayersStep sessionAliceSolRing
        ["ALICE", "Carol"]).sessionPlayers.map PlayerProfile.name) ∧
    (recGet (registerPlayersStep sessionAliceSolRing ["ALICE", "Carol"]).battlefield "Alice"
        = some [] ∧
     recGet (registerPlayersStep sessionAliceSolRing ["ALICE", "Carol"]).currentLife "Alice"
        = some (jsOrInt (recGet sessionAliceSolRing.currentLife "Alice") 40)) :=
  ⟨by decide, reregistration_resets_board_keeps_life sessionAliceSolRing
    ["ALICE", "Carol"] "Alice" (by decide)⟩

/-! ### C6 -/

/-- Test fixture: the session after registering only Alice. -/
def sessionAliceOnly : SessionState := registerPlayersStep freshSession ["Alice"]

/-- C6 counterexample: with the roster exactly ["Alice"], mutations
naming the unregistered "Bob" are not no-ops and do create entries:
`adjustLife` stores life 45 for Bob, `adjustCommanderDamage` creates a
damage row for him, and a `manage_board` play gives him a board
entry. -/
theorem unknown_player_mutation_creates_entry_counterexample :
    sessionAliceOnly.sessionPlayers.map PlayerProfile.name = ["Alice"] ∧
    recGet sessionAliceOnly.currentLife "Bob" = none ∧
    recGet (adjustLife sessionAliceOnly.currentLife "Bob" 5) "Bob" = some 45 ∧
    recGet (adjustCommanderDamage sessionAliceOnly.commanderDamage "Bob" "Eve" 3) "Bob"
      = some [("Eve", 3)] ∧
    (recGet (manageBoard [solRingCard] 5 sessionAliceOnly.battlefield
        "play" "Sol Ring" "Bob" none none).1 "Bob").isSome = true := by decide

/-- C6 amended: immediately after a registration that yields a
non-empty roster, a battlefield entry and a life entry exist exactly
for the roster names; but the original claim's mutation clause fails —
`adjustLife` always creates an entry for the named player whether or
not that player is in the roster (the counterexample shows the same for
commander damage and board plays). -/
theorem entries_iff_roster_at_registration (s : SessionState) (names : List String)
    (n : String) (hne : (registerPlayersStep s names).sessionPlayers ≠ []) :
    ((recGet (registerPlayersStep s names).battlefield n).isSome = true ↔
      n ∈ (registerPlayersStep s names).sessionPlayers.map PlayerProfile.name) ∧
    ((recGet (registerPlayersStep s names).currentLife n).isSome = true ↔
      n ∈ (registerPlayersStep s names).sessionPlayers.map PlayerProfile.name) ∧
    (∀ (life : List (String × Int)) (p : String) (dlt : Int),
      (recGet (adjustLife life p dlt) p).isSome = true) := by
  simp only [registerPlayersStep] at hne ⊢
  have hlen : 0 < (registerSessionPlayers s.db names).1.length := List.length_pos.mpr hne
  refine ⟨?_, ?_, ?_⟩
  · have hb := recGet_foldl_profiles (registerSessionPlayers s.db names).1
      (fun _ => ([] : List BattlefieldCard)) [] n
    simp only at hb
    rw [hb]
    by_cases hmem : n ∈ (registerSessionPlayers s.db names).1.map PlayerProfile.name
    · simp [hmem]
    · simp [hmem, recGet_nil]
  · simp only [initLifeEffect]
    rw [if_pos hlen]
    have hl := recGet_foldl_profiles (registerSessionPlayers s.db names).1
      (fun m => jsOrInt (recGet s.currentLife m) 40) [] n
    simp only at hl
    rw [hl]
    by_cases hmem : n ∈ (registerSessionPlayers s.db names).1.map PlayerProfile.name
    · simp [hmem]
    · simp [hmem, recGet_nil]
  · intro life p dlt
    unfold adjustLife
    rw [recGet_recSet, if_pos rfl]
    rfl

/-- Witness for `entries_iff_roster_at_registration` on the one-player
session. -/
theorem entries_iff_roster_at_registration_witness :
    ((recGet (registerPlayersStep freshSession ["Alice"]).battlefield "Bob").isSome = true ↔
      "Bob" ∈ (registerPlayersStep freshSession
        ["Alice"]).sessionPlayers.map PlayerProfile.name) :=
  (entries_iff_roster_at_registration freshSession ["Alice"] "Bob" (by decide)).1

end Announcer
